import Mathlib

/-!
Verification of the Lexiconic realtime-transcription client
(`src/realtime_transcription_test.py`, `src/whisper_transcription.py`).

The Python code is shallowly embedded: JSON values become an inductive
`JValue`, the transcriber's mutable state becomes an explicit record that is
threaded through the dispatcher, and the asyncio receive loop becomes a
recursive function over the list of inbound websocket messages.  Side effects
that matter to the spec (console diagnostics, outbound sends, pacing sleeps)
are recorded in explicit traces.  External library behaviour is modelled by
its observable result: `json.loads` either yields a `JValue` or fails
(`Option JValue` payload on a text frame), `proc.stdout.read(n)` returns
`min n remaining` bytes of the decoder's output, and real arithmetic is done
in `ℚ`.
-/

namespace Lexiconic

/-- JSON values as produced by `json.loads`.  Numbers are modelled as `ℚ`
(the source only ever uses exact decimal literals such as `0.7`). -/
inductive JValue where
  | null
  | bool (b : Bool)
  | num (q : ℚ)
  | str (s : String)
  | arr (elems : List JValue)
  | obj (fields : List (String × JValue))

/-- Python truthiness (`if transcript:`) restricted to JSON values:
`None`, `False`, `0`, `""`, `[]` and `{}` are falsy, everything else truthy. -/
def JValue.truthy : JValue → Bool
  | .null => false
  | .bool b => b
  | .num q => q != 0
  | .str s => s != ""
  | .arr es => !es.isEmpty
  | .obj fs => !fs.isEmpty

/-- `data.get(key, dflt)` on a parsed JSON object (Python `dict.get`).
JSON objects have unique keys, so first-match lookup is the dict lookup. -/
def jget (v : JValue) (key : String) (dflt : JValue) : JValue :=
  match v with
  | .obj fields =>
    match fields.lookup key with
    | some x => x
    | none => dflt
  | _ => dflt

/-- Is the parsed value a JSON object?  `_handle_response` calls `.get` on it,
which raises `AttributeError` on any non-dict value. -/
def JValue.isObj : JValue → Bool
  | .obj _ => true
  | _ => false

/-- The mutable state of `RealtimeTranscriber` touched by the dispatcher:
`self.transcription_buffer` (a Python list the dispatcher appends to). -/
structure TState where
  transcription_buffer : List JValue

/-- The initial transcriber state (`self.transcription_buffer = []`). -/
def TState.init : TState := ⟨[]⟩

/-- Which diagnostic `print` fired; payload text is abstracted to a tag. -/
inductive LogTag where
  | sessionCreated
  | speechStarted
  | speechStopped
  | transcription
  | transcriptionFailed
  | apiError
  | invalidJson
  | wsError
  | wsClosed
  | listenError
deriving BEq, DecidableEq, Repr

/-- `RealtimeTranscriber._handle_response`: classify the event by
`data.get("type", "")` and update state/logs accordingly.  Only the
`conversation.item.input_audio_transcription.completed` branch touches state,
and only when `data.get("transcript", "")` is truthy. -/
def handle_response (data : JValue) (st : TState) : TState × List LogTag :=
  match jget data "type" (.str "") with
  | .str ty =>
    if ty = "session.created" then
      (st, [.sessionCreated])
    else if ty = "input_audio_buffer.speech_started" then
      (st, [.speechStarted])
    else if ty = "input_audio_buffer.speech_stopped" then
      (st, [.speechStopped])
    else if ty = "conversation.item.input_audio_transcription.completed" then
      let transcript := jget data "transcript" (.str "")
      if transcript.truthy then
        ({ st with transcription_buffer := st.transcription_buffer ++ [transcript] },
         [.transcription])
      else
        (st, [])
    else if ty = "conversation.item.input_audio_transcription.failed" then
      (st, [.transcriptionFailed])
    else if ty = "error" then
      (st, [.apiError])
    else
      (st, [])
  | _ => (st, [])

/-- `RealtimeTranscriber.get_transcriptions`: `self.transcription_buffer.copy()`.
A copy of a pure list is the list itself. -/
def get_transcriptions (st : TState) : List JValue :=
  st.transcription_buffer

/-- Dispatching a sequence of already-parsed inbound events in arrival order. -/
def dispatch_events (events : List JValue) (st : TState) : TState :=
  events.foldl (fun s e => (handle_response e s).1) st

/-- Spec-side extraction: the transcripts that a sequence of inbound events
should contribute to the buffer — the `transcript` payloads of
`transcriptionCompleted` events with non-empty (truthy) text, in order. -/
def finalTranscripts (events : List JValue) : List JValue :=
  events.filterMap fun e =>
    match jget e "type" (.str "") with
    | .str ty =>
      if ty = "conversation.item.input_audio_transcription.completed" then
        let transcript := jget e "transcript" (.str "")
        if transcript.truthy then some transcript else none
      else none
    | _ => none

/-- One inbound websocket message as seen by `listen_for_responses`.
A `text` frame carries the result of `json.loads` on its payload:
`none` models a payload that is not valid JSON (`json.JSONDecodeError`). -/
inductive WSMsg where
  | text (payload : Option JValue)
  | error
  | close
  | other

/-- `RealtimeTranscriber.listen_for_responses`: iterate over inbound
messages; malformed JSON is logged and skipped; a `TEXT` frame whose JSON is
not an object makes `data.get` raise, which escapes to the outer handler and
ends the loop; `ERROR`/`CLOSE` frames break the loop. -/
def listen_for_responses (msgs : List WSMsg) (st : TState) : TState × List LogTag :=
  match msgs with
  | [] => (st, [])
  | msg :: rest =>
    match msg with
    | .text none =>
      let (st1, logs) := listen_for_responses rest st
      (st1, .invalidJson :: logs)
    | .text (some data) =>
      if data.isObj then
        let (st1, logs1) := handle_response data st
        let (st2, logs2) := listen_for_responses rest st1
        (st2, logs1 ++ logs2)
      else
        (st, [.listenError])
    | .error => (st, [.wsError])
    | .close => (st, [.wsClosed])
    | .other =>
      listen_for_responses rest st

/-- A `conversation.item.input_audio_transcription.completed` event carrying
the given transcript text. -/
def completedMsg (transcript : String) : JValue :=
  .obj [("type", .str "conversation.item.input_audio_transcription.completed"),
        ("transcript", .str transcript)]

/-- An inbound event of the given type carrying an `error` payload
(`conversation.item.input_audio_transcription.failed` or `error`). -/
def errorMsg (ty : String) (err : JValue) : JValue :=
  .obj [("type", .str ty), ("error", err)]

/-! ### Base64 and the append-event codec

`base64.b64encode(audio_data).decode('utf-8')` on the raw frame bytes, and
the standard base64 decoder for the round trip.  Bytes are `Nat` values
`< 256`. -/

/-- The standard base64 alphabet. -/
def b64Alphabet : List Char :=
  "ABCDEFGHIJKLMNOPQRSTUVWXYZabcdefghijklmnopqrstuvwxyz0123456789+/".toList

/-- The base64 character for a 6-bit value. -/
def b64Char (n : Nat) : Char := b64Alphabet.getD n '?'

/-- The 6-bit value of a base64 character (`none` when not in the alphabet,
in particular for the padding character). -/
def b64Index (c : Char) : Option Nat := b64Alphabet.findIdx? (· = c)

/-- `base64.b64encode` on a byte list: groups of three bytes become four
alphabet characters; a trailing group of one or two bytes is padded with
`=`. -/
def b64encode : List Nat → List Char
  | [] => []
  | [a] => [b64Char (a / 4), b64Char (a % 4 * 16), '=', '=']
  | [a, b] => [b64Char (a / 4), b64Char (a % 4 * 16 + b / 16), b64Char (b % 16 * 4), '=']
  | a :: b :: c :: rest =>
    b64Char (a / 4) :: b64Char (a % 4 * 16 + b / 16) :: b64Char (b % 16 * 4 + c / 64)
      :: b64Char (c % 64) :: b64encode rest

/-- `base64.b64decode` on a character list: quads of alphabet characters
yield three bytes; a final quad may carry one or two `=` padding characters
and yields two bytes or one. -/
def b64decode : List Char → Option (List Nat)
  | [] => some []
  | c1 :: c2 :: c3 :: c4 :: rest =>
    match b64Index c1, b64Index c2, b64Index c3, b64Index c4 with
    | some d1, some d2, some d3, some d4 =>
      match b64decode rest with
      | some tail =>
        some ((d1 * 4 + d2 / 16) :: (d2 % 16 * 16 + d3 / 4) :: (d3 % 4 * 64 + d4) :: tail)
      | none => none
    | some d1, some d2, some d3, none =>
      if c4 = '=' ∧ rest = [] ∧ d3 % 4 = 0 then
        some [d1 * 4 + d2 / 16, d2 % 16 * 16 + d3 / 4]
      else none
    | some d1, some d2, none, none =>
      if c3 = '=' ∧ c4 = '=' ∧ rest = [] ∧ d2 % 16 = 0 then
        some [d1 * 4 + d2 / 16]
      else none
    | _, _, _, _ => none
  | _ => none

/-- The outbound append event built in `_audio_capture_loop` / `stream_file`:
`{"type": "input_audio_buffer.append", "audio": base64(frame)}`. -/
def audio_event (frame : List Nat) : JValue :=
  .obj [("type", .str "input_audio_buffer.append"),
        ("audio", .str (String.mk (b64encode frame)))]

/-- The decoding direction of the append-event codec: read the `audio` field
of the JSON object and base64-decode it. -/
def decode_audio_event (v : JValue) : Option (List Nat) :=
  match jget v "audio" .null with
  | .str s => b64decode s.toList
  | _ => none

/-! ### File streaming (`RealtimeTranscriber.stream_file`)

The external decoder is modelled by its observable behaviour: whether
`ffmpeg` is on the PATH, whether the subprocess spawns, the PCM bytes it
writes to stdout, and its exit status.  `proc.stdout.read(n)` is modelled as
returning `min n remaining` bytes of that output.  Real arithmetic is `ℚ`. -/

/-- `SAMPLE_RATE = 24000` (the realtime API expects 24 kHz). -/
def SAMPLE_RATE : Nat := 24000

/-- `CHUNK_SIZE = 1024` samples per frame. -/
def CHUNK_SIZE : Nat := 1024

/-- `bytes_per_frame = 2` (16-bit mono). -/
def bytes_per_frame : Nat := 2

/-- `chunk_bytes = CHUNK_SIZE * bytes_per_frame` = 2048 bytes per frame. -/
def chunk_bytes : Nat := CHUNK_SIZE * bytes_per_frame

/-- `seconds_per_chunk = CHUNK_SIZE / float(SAMPLE_RATE)`. -/
def seconds_per_chunk : ℚ := (CHUNK_SIZE : ℚ) / (SAMPLE_RATE : ℚ)

/-- The pause paced between frame sends:
`max(0.0, seconds_per_chunk / max(realtime_factor, 1e-6))`. -/
def pace_sleep (realtime_factor : ℚ) : ℚ :=
  max 0 (seconds_per_chunk / max realtime_factor (1 / 1000000))

/-- The loop `data = await proc.stdout.read(chunk_bytes)` until empty, under
the full-read schedule: every read before exhaustion returns the full 2048
bytes, so the decoder's stdout is sliced into 2048-byte frames, the last one
possibly shorter.  This is `readChunksSched` with an exhausted schedule. -/
def readChunks : List Nat → List (List Nat)
  | [] => []
  | b :: rest => ((b :: rest).take 2048) :: readChunks ((b :: rest).drop 2048)
termination_by l => l.length
decreasing_by simp [List.length_drop]; omega

/-- The read loop under an arbitrary read schedule.  `StreamReader.read(n)`
returns between 1 and `n` bytes while data remains (it waits for at least
one byte, and may return fewer than `n`), and `b""` only at EOF.  The
schedule entry `s` is how many bytes the pipe has ready at that read,
clamped to `[1, 2048]`; an exhausted schedule means everything is ready, so
further reads return full 2048-byte chunks. -/
def readChunksSched : List Nat → List Nat → List (List Nat)
  | _, [] => []
  | [], b :: rest => ((b :: rest).take 2048) :: readChunksSched [] ((b :: rest).drop 2048)
  | s :: sched, b :: rest =>
    ((b :: rest).take (min (max s 1) 2048))
      :: readChunksSched sched ((b :: rest).drop (min (max s 1) 2048))
termination_by _ bs => bs.length
decreasing_by
  all_goals simp [List.length_drop]
  all_goals omega

/-- One observable step of `stream_file`: a websocket send or a pacing
sleep (in seconds). -/
inductive OutAction where
  | send (v : JValue)
  | sleep (q : ℚ)

/-- The commit event `{"type": "input_audio_buffer.commit"}`. -/
def commit_event : JValue := .obj [("type", .str "input_audio_buffer.commit")]

/-- The environment `stream_file` runs against. -/
structure StreamEnv where
  /-- `shutil.which("ffmpeg") is not None`. -/
  ffmpeg_on_path : Bool
  /-- `asyncio.create_subprocess_exec` succeeds. -/
  spawn_ok : Bool
  /-- The PCM bytes the decoder writes to stdout (empty when the input path
  does not exist: ffmpeg produces no output and exits non-zero). -/
  pcm : List Nat
  /-- The decoder's exit status, awaited by `proc.wait()`. -/
  exit_code : Nat

/-- `RealtimeTranscriber.stream_file`: check for ffmpeg, spawn the decoder,
send one append event per 2048-byte frame with a pacing sleep after each,
then optionally send the commit event.  The decoder's exit status is awaited
but never examined. -/
def stream_file (env : StreamEnv) (realtime_factor : ℚ) (send_commit : Bool) :
    Except String (List OutAction) :=
  if env.ffmpeg_on_path = false then
    .error "ffmpeg is required to stream audio files."
  else if env.spawn_ok = false then
    .error "Failed to start ffmpeg"
  else
    let frames := readChunks env.pcm
    let sends := frames.flatMap fun chunk =>
      [OutAction.send (audio_event chunk), OutAction.sleep (pace_sleep realtime_factor)]
    .ok (sends ++ if send_commit then [OutAction.send commit_event] else [])

/-- `RealtimeTranscriber.stream_file` under an arbitrary read schedule:
identical to `stream_file` except that the frames are whatever
`proc.stdout.read(chunk_bytes)` delivers under that schedule. -/
def stream_file_sched (env : StreamEnv) (sched : List Nat) (realtime_factor : ℚ)
    (send_commit : Bool) : Except String (List OutAction) :=
  if env.ffmpeg_on_path = false then
    .error "ffmpeg is required to stream audio files."
  else if env.spawn_ok = false then
    .error "Failed to start ffmpeg"
  else
    let frames := readChunksSched sched env.pcm
    let sends := frames.flatMap fun chunk =>
      [OutAction.send (audio_event chunk), OutAction.sleep (pace_sleep realtime_factor)]
    .ok (sends ++ if send_commit then [OutAction.send commit_event] else [])

/-- Did an `Except` computation succeed? -/
def exceptOk {ε α : Type} : Except ε α → Bool
  | .ok _ => true
  | .error _ => false

/-! ### Connect (`RealtimeTranscriber.connect`) -/

/-- The session configuration event sent right after the websocket opens. -/
def session_config : JValue :=
  .obj [("type", .str "session.update"),
        ("session", .obj
          [("modalities", .arr [.str "text", .str "audio"]),
           ("instructions",
            .str "You are a helpful assistant that transcribes audio in real-time."),
           ("voice", .str "alloy"),
           ("input_audio_format", .str "pcm16"),
           ("output_audio_format", .str "pcm16"),
           ("input_audio_transcription", .obj [("model", .str "whisper-1")]),
           ("turn_detection", .obj
             [("type", .str "server_vad"),
              ("threshold", .num (7 / 10)),
              ("prefix_padding_ms", .num 500),
              ("silence_duration_ms", .num 500)])])]

/-- The connection-related state of the transcriber: a generator of fresh
connection ids, and `self.websocket` (the handle currently held). -/
structure ConnectState where
  next_conn : Nat
  websocket : Option Nat

/-- What one `connect()` call does: the resulting state, the id of the
connection `ws_connect` opened, the messages it sent (paired with the
connection they went to), and the connections it closed. -/
structure ConnectResult where
  state : ConnectState
  opened : Nat
  sent : List (Nat × JValue)
  closed : List Nat

/-- `RealtimeTranscriber.connect`: unconditionally open a fresh websocket
connection, overwrite `self.websocket` with it, and send the session
configuration on it.  There is no check of the previously held handle and
nothing is closed. -/
def connect (s : ConnectState) : ConnectResult :=
  { state := { next_conn := s.next_conn + 1, websocket := some s.next_conn },
    opened := s.next_conn,
    sent := [(s.next_conn, session_config)],
    closed := [] }

/-! ### Batch transcription (`whisper_transcription.translate_audio`) -/

/-- The observable outcome of the `client.audio.translations.create` call
for a given prompt. -/
inductive ServiceOutcome where
  | success (text : String)
  | failure (message : String)

/-- `translate_audio(file_path, prompt)`: if the path does not exist,
return the sentinel string `"Error: Audio file not found at <path>"`;
otherwise call the service with the prompt and return its text on success,
or the sentinel string `"An error occurred: <e>"` when the call raises.
All three outcomes are ordinary `str` return values. -/
def translate_audio (file_exists : Bool) (file_path : String) (prompt : String)
    (service : String → ServiceOutcome) : String :=
  if file_exists = false then
    "Error: Audio file not found at " ++ file_path
  else
    match service prompt with
    | .success t => t
    | .failure e => "An error occurred: " ++ e

/-! ### Dispatcher lemmas -/

theorem handle_response_buffer (e : JValue) (st : TState) :
    (handle_response e st).1.transcription_buffer
      = st.transcription_buffer ++ finalTranscripts [e] := by
  unfold handle_response finalTranscripts
  simp only [List.filterMap_cons, List.filterMap_nil]
  cases h : jget e "type" (.str "") with
  | str ty =>
    simp only [h]
    split_ifs <;> simp_all
  | null => simp [h]
  | bool b => simp [h]
  | num q => simp [h]
  | arr es => simp [h]
  | obj fs => simp [h]

theorem finalTranscripts_cons (e : JValue) (rest : List JValue) :
    finalTranscripts (e :: rest) = finalTranscripts [e] ++ finalTranscripts rest := by
  unfold finalTranscripts
  simp only [List.filterMap_cons, List.filterMap_nil]
  cases h : jget e "type" (.str "") with
  | str ty =>
    simp only [h]
    split_ifs <;> simp_all
  | null => simp [h]
  | bool b => simp [h]
  | num q => simp [h]
  | arr es => simp [h]
  | obj fs => simp [h]

theorem dispatch_events_buffer (events : List JValue) (st : TState) :
    (dispatch_events events st).transcription_buffer
      = st.transcription_buffer ++ finalTranscripts events := by
  induction events generalizing st with
  | nil => simp [dispatch_events, finalTranscripts]
  | cons e rest ih =>
    have h1 := handle_response_buffer e st
    show (dispatch_events rest (handle_response e st).1).transcription_buffer = _
    rw [ih, h1, finalTranscripts_cons e rest, List.append_assoc]

/-- C1: dispatching any sequence of inbound events extends the transcript
buffer, in arrival order, by exactly the transcripts of the
`transcriptionCompleted` events with non-empty text (so an empty transcript
appends nothing and no event mutates or removes an existing entry); in
particular `"hello"` then `"world"` yields
`get_transcriptions = ["hello", "world"]`, and an empty transcript leaves
the state untouched. -/
theorem transcript_buffer_append_only :
    (∀ (events : List JValue) (st : TState),
      (dispatch_events events st).transcription_buffer
        = st.transcription_buffer ++ finalTranscripts events)
    ∧ get_transcriptions
        (dispatch_events [completedMsg "hello", completedMsg "world"] TState.init)
        = [.str "hello", .str "world"]
    ∧ dispatch_events [completedMsg ""] TState.init = TState.init :=
  ⟨dispatch_events_buffer, rfl, rfl⟩

/-- C2: a text frame whose payload is not valid JSON is logged as a parse
warning and skipped: the loop processes the remaining frames exactly as it
would have without the malformed frame, and the frame contributes nothing to
the transcript buffer. -/
theorem malformed_frame_skipped (rest : List WSMsg) (st : TState) :
    listen_for_responses (.text none :: rest) st
      = ((listen_for_responses rest st).1,
         .invalidJson :: (listen_for_responses rest st).2) := by
  simp [listen_for_responses]

/-- C2 witness: a malformed frame followed by a completed transcript still
yields that transcript. -/
theorem malformed_frame_skipped_witness :
    listen_for_responses [.text none, .text (some (completedMsg "hello"))] TState.init
      = (⟨[.str "hello"]⟩, [.invalidJson, .transcription]) := by
  rw [malformed_frame_skipped [.text (some (completedMsg "hello"))] TState.init]
  rfl

/-- C3: `apiError` and `transcriptionFailed` events only log: the state is
unchanged, the receive loop is not terminated, and a subsequent
`transcriptionCompleted` event is still processed and appended. -/
theorem api_error_nonfatal :
    (∀ (err : JValue) (st : TState),
      handle_response (errorMsg "error" err) st = (st, [.apiError]))
    ∧ (∀ (err : JValue) (st : TState),
      handle_response
        (errorMsg "conversation.item.input_audio_transcription.failed" err) st
        = (st, [.transcriptionFailed]))
    ∧ (∀ (err : JValue) (rest : List WSMsg) (st : TState),
      (listen_for_responses (.text (some (errorMsg "error" err)) :: rest) st).1
        = (listen_for_responses rest st).1)
    ∧ get_transcriptions
        (listen_for_responses
          [.text (some (errorMsg "error" (.str "boom"))),
           .text (some (completedMsg "hello"))] TState.init).1
        = [.str "hello"] := by
  refine ⟨fun err st => rfl, fun err st => rfl, fun err rest st => ?_, rfl⟩
  simp [listen_for_responses, JValue.isObj, errorMsg]
  rfl

/-- C10: a `transcriptionCompleted` event whose object has no `transcript`
field is treated exactly like one with empty transcript text: nothing is
appended, nothing is raised, and the result coincides with the explicit
`transcript=""` event. -/
theorem missing_transcript_like_empty (fields : List (String × JValue)) (st : TState)
    (hty : fields.lookup "type"
      = some (.str "conversation.item.input_audio_transcription.completed"))
    (htr : fields.lookup "transcript" = none) :
    handle_response (.obj fields) st = (st, [])
    ∧ handle_response (.obj fields) st
      = handle_response (.obj (("transcript", JValue.str "") :: fields)) st := by
  constructor
  · simp [handle_response, jget, hty, htr, JValue.truthy]
  · simp [handle_response, jget, hty, htr, JValue.truthy, List.lookup]

/-! ### Chunking lemmas -/

theorem readChunks_nil_iff (bs : List Nat) : readChunks bs = [] ↔ bs = [] := by
  cases bs with
  | nil => simp [readChunks]
  | cons b rest => rw [readChunks]; simp

theorem readChunks_length (bs : List Nat) :
    (readChunks bs).length = (bs.length + 2047) / 2048 := by
  induction bs using readChunks.induct with
  | case1 => simp [readChunks]
  | case2 b rest ih =>
    rw [readChunks]
    simp only [List.length_cons, List.length_drop] at ih ⊢
    omega

theorem readChunks_sizes (bs : List Nat) :
    ∀ c ∈ readChunks bs, 0 < c.length ∧ c.length ≤ 2048 := by
  induction bs using readChunks.induct with
  | case1 => simp [readChunks]
  | case2 b rest ih =>
    rw [readChunks]
    intro c hc
    rcases List.mem_cons.mp hc with h | h
    · subst h
      simp only [List.length_take, List.length_cons]
      omega
    · exact ih c h

theorem readChunks_full (bs : List Nat) :
    ∀ i, i + 1 < (readChunks bs).length → ((readChunks bs).getD i []).length = 2048 := by
  induction bs using readChunks.induct with
  | case1 => simp [readChunks]
  | case2 b rest ih =>
    rw [readChunks]
    intro i hi
    cases i with
    | zero =>
      simp only [List.length_cons] at hi
      have hne : readChunks ((b :: rest).drop 2048) ≠ [] := by
        intro hemp
        rw [hemp] at hi
        simp at hi
      have hdrop : (b :: rest).drop 2048 ≠ [] := by
        intro h0
        exact hne ((readChunks_nil_iff _).mpr h0)
      have hlen : 2048 < (b :: rest).length := by
        by_contra hle
        push_neg at hle
        exact hdrop (List.drop_eq_nil_of_le hle)
      simp only [List.getD_cons_zero, List.length_take]
      omega
    | succ j =>
      simp only [List.getD_cons_succ]
      apply ih
      simpa using hi

/-! ### Base64 round trip -/

theorem b64Index_b64Char_fin : ∀ d : Fin 64, b64Index (b64Char d.val) = some d.val := by
  decide

theorem b64Index_b64Char (d : Nat) (h : d < 64) : b64Index (b64Char d) = some d :=
  b64Index_b64Char_fin ⟨d, h⟩

theorem b64Index_pad : b64Index '=' = none := by decide

theorem b64_roundtrip : ∀ (bs : List Nat), (∀ x ∈ bs, x < 256) →
    b64decode (b64encode bs) = some bs
  | [], _ => rfl
  | [a], h => by
    have ha : a < 256 := h a (by simp)
    simp only [b64encode, b64decode, b64Index_b64Char (a / 4) (by omega),
      b64Index_b64Char (a % 4 * 16) (by omega), b64Index_pad, true_and]
    rw [if_pos (show a % 4 * 16 % 16 = 0 by omega)]
    have : a / 4 * 4 + a % 4 * 16 / 16 = a := by omega
    rw [this]
  | [a, b], h => by
    have ha : a < 256 := h a (by simp)
    have hb : b < 256 := h b (by simp)
    simp only [b64encode, b64decode, b64Index_b64Char (a / 4) (by omega),
      b64Index_b64Char (a % 4 * 16 + b / 16) (by omega),
      b64Index_b64Char (b % 16 * 4) (by omega), b64Index_pad, true_and]
    rw [if_pos (show b % 16 * 4 % 4 = 0 by omega)]
    have h1 : a / 4 * 4 + (a % 4 * 16 + b / 16) / 16 = a := by omega
    have h2 : (a % 4 * 16 + b / 16) % 16 * 16 + b % 16 * 4 / 4 = b := by omega
    rw [h1, h2]
  | a :: b :: c :: rest, h => by
    have ha : a < 256 := h a (by simp)
    have hb : b < 256 := h b (by simp)
    have hc : c < 256 := h c (by simp)
    have ih := b64_roundtrip rest (fun x hx => h x (by simp [hx]))
    simp only [b64encode, b64decode, b64Index_b64Char (a / 4) (by omega),
      b64Index_b64Char (a % 4 * 16 + b / 16) (by omega),
      b64Index_b64Char (b % 16 * 4 + c / 64) (by omega),
      b64Index_b64Char (c % 64) (by omega), ih]
    have h1 : a / 4 * 4 + (a % 4 * 16 + b / 16) / 16 = a := by omega
    have h2 : (a % 4 * 16 + b / 16) % 16 * 16 + (b % 16 * 4 + c / 64) / 4 = b := by omega
    have h3 : (b % 16 * 4 + c / 64) % 4 * 64 + c % 64 = c := by omega
    rw [h1, h2, h3]

/-- C4: the append-event codec is a round trip: building the
`input_audio_buffer.append` event for any byte frame and then reading back
and base64-decoding its `audio` field recovers the frame byte-for-byte, and
the event's `type` field is `input_audio_buffer.append`. -/
theorem append_event_roundtrip (frame : List Nat) (h : ∀ x ∈ frame, x < 256) :
    decode_audio_event (audio_event frame) = some frame
    ∧ jget (audio_event frame) "type" .null = .str "input_audio_buffer.append" := by
  refine ⟨?_, rfl⟩
  show b64decode (String.mk (b64encode frame)).toList = some frame
  exact b64_roundtrip frame h

/-- C4 witness: round trip at a concrete four-byte frame. -/
theorem append_event_roundtrip_witness :
    (∀ x ∈ [0, 127, 255, 10], x < 256)
    ∧ (decode_audio_event (audio_event [0, 127, 255, 10]) = some [0, 127, 255, 10]
       ∧ jget (audio_event [0, 127, 255, 10]) "type" .null
         = .str "input_audio_buffer.append") :=
  ⟨by decide, append_event_roundtrip [0, 127, 255, 10] (by decide)⟩

/-! ### File streaming -/

/-- C5 counterexample: `stream_file` does not reject `realtime_factor = 0`
(the call proceeds and succeeds), and for a positive factor below `1e-6` the
pause is not `frameSamples / sampleRate / speedFactor` either (the divisor
is clamped at `1e-6`). -/
theorem speed_zero_not_rejected :
    exceptOk (stream_file ⟨true, true, [5, 6], 1⟩ 0 true) = true
    ∧ pace_sleep (1 / 10000000) ≠ seconds_per_chunk / (1 / 10000000) := by
  refine ⟨rfl, ?_⟩
  norm_num [pace_sleep, seconds_per_chunk, SAMPLE_RATE, CHUNK_SIZE, max_def]

/-- C5 amended: `stream_file` never rejects a non-positive
`realtime_factor`; the divisor is clamped at `1e-6`, so any factor
`≥ 1e-6` yields a pause of `frameSamples / sampleRate / speedFactor`
seconds between frame sends, while any factor `≤ 1e-6` (including zero and
negatives) yields the fixed pause `frameSamples / sampleRate * 10^6`. -/
theorem pace_policy (env : StreamEnv) (rf : ℚ) (sc : Bool)
    (henv : env.ffmpeg_on_path = true) (hspawn : env.spawn_ok = true) :
    exceptOk (stream_file env rf sc) = true
    ∧ (1 / 1000000 ≤ rf → pace_sleep rf = seconds_per_chunk / rf)
    ∧ (rf ≤ 1 / 1000000 → pace_sleep rf = seconds_per_chunk * 1000000) := by
  refine ⟨?_, fun h => ?_, fun h => ?_⟩
  · simp [stream_file, henv, hspawn, exceptOk]
  · unfold pace_sleep
    rw [max_eq_left h]
    exact max_eq_right (div_nonneg
      (by norm_num [seconds_per_chunk, SAMPLE_RATE, CHUNK_SIZE]) (by linarith))
  · unfold pace_sleep
    have hdiv : seconds_per_chunk / (1 / 1000000) = seconds_per_chunk * 1000000 := by
      rw [div_div_eq_mul_div, div_one]
    rw [max_eq_right h, hdiv]
    exact max_eq_right (by norm_num [seconds_per_chunk, SAMPLE_RATE, CHUNK_SIZE])

/-- C5 witness: at `realtime_factor = 1` the pause is
`seconds_per_chunk / 1`. -/
theorem pace_policy_witness :
    ((⟨true, true, [], 0⟩ : StreamEnv).ffmpeg_on_path = true)
    ∧ ((1 : ℚ) / 1000000 ≤ 1)
    ∧ pace_sleep 1 = seconds_per_chunk / 1 :=
  ⟨rfl, by norm_num,
    (pace_policy ⟨true, true, [], 0⟩ 1 false rfl rfl).2.1 (by norm_num)⟩

/-- C6 counterexample: with ffmpeg present, a nonexistent input path (the
decoder produces no output) together with a non-zero decoder exit status
does not make `stream_file` fail: it returns successfully, having sent only
the commit event. -/
theorem missing_file_and_bad_exit_not_errors :
    stream_file ⟨true, true, [], 1⟩ 1 true = .ok [.send commit_event] := by
  simp [stream_file, readChunks]

/-- C6 amended: `stream_file` fails (RuntimeError) exactly when ffmpeg is
not on the PATH or the decoder process cannot be started; a nonexistent
path and a non-zero decoder exit status are not surfaced — the result does
not depend on the exit status at all, and any successfully spawned decode
returns successfully. -/
theorem stream_file_error_cases (env : StreamEnv) (rf : ℚ) (sc : Bool) :
    (env.ffmpeg_on_path = false →
      stream_file env rf sc = .error "ffmpeg is required to stream audio files.")
    ∧ (env.ffmpeg_on_path = true → env.spawn_ok = false →
      stream_file env rf sc = .error "Failed to start ffmpeg")
    ∧ (∀ k, stream_file ⟨env.ffmpeg_on_path, env.spawn_ok, env.pcm, k⟩ rf sc
        = stream_file env rf sc)
    ∧ (env.ffmpeg_on_path = true → env.spawn_ok = true →
      exceptOk (stream_file env rf sc) = true) := by
  refine ⟨fun h => ?_, fun h1 h2 => ?_, fun k => ?_, fun h1 h2 => ?_⟩ <;>
    simp [stream_file, *, exceptOk]

/-- C6 witness: a missing decoder yields the DecoderUnavailable error. -/
theorem stream_file_error_cases_witness :
    ((⟨false, true, [], 0⟩ : StreamEnv).ffmpeg_on_path = false)
    ∧ stream_file ⟨false, true, [], 0⟩ 1 true
        = .error "ffmpeg is required to stream audio files." :=
  ⟨rfl, (stream_file_error_cases ⟨false, true, [], 0⟩ 1 true).1 rfl⟩

theorem readChunksSched_nil_sched (bs : List Nat) :
    readChunksSched [] bs = readChunks bs := by
  induction bs using readChunks.induct with
  | case1 => simp [readChunks, readChunksSched]
  | case2 b rest ih => rw [readChunks, readChunksSched, ih]

theorem readChunksSched_sizes (sched : List Nat) (bs : List Nat) :
    ∀ c ∈ readChunksSched sched bs, 0 < c.length ∧ c.length ≤ 2048 := by
  induction sched, bs using readChunksSched.induct with
  | case1 sched => simp [readChunksSched]
  | case2 b rest ih =>
    rw [readChunksSched]
    intro c hc
    rcases List.mem_cons.mp hc with h | h
    · subst h
      simp only [List.length_take, List.length_cons]
      omega
    · exact ih c h
  | case3 s sched b rest ih =>
    rw [readChunksSched]
    intro c hc
    rcases List.mem_cons.mp hc with h | h
    · subst h
      simp only [List.length_take, List.length_cons]
      omega
    · exact ih c h

theorem readChunksSched_join (sched : List Nat) (bs : List Nat) :
    (readChunksSched sched bs).flatten = bs := by
  induction sched, bs using readChunksSched.induct with
  | case1 sched => simp [readChunksSched]
  | case2 b rest ih =>
    rw [readChunksSched, List.flatten_cons, ih, List.take_append_drop]
  | case3 s sched b rest ih =>
    rw [readChunksSched, List.flatten_cons, ih, List.take_append_drop]

/-- C7 counterexample: `stream_file` reads with `proc.stdout.read(n)`,
which may return fewer than `n` bytes mid-stream; under a schedule where
the pipe has one byte ready at each read, a two-byte decoder output is
streamed as two one-byte frames — a non-final frame is not `chunk_bytes`
long, and the frame count exceeds
`duration * sampleRate / frameSamples + 1`. -/
theorem partial_reads_break_framing :
    stream_file_sched ⟨true, true, [7, 8], 0⟩ [1, 1] 1 true
      = .ok [.send (audio_event [7]), .sleep (pace_sleep 1),
             .send (audio_event [8]), .sleep (pace_sleep 1), .send commit_event]
    ∧ ((readChunksSched [1, 1] [7, 8]).getD 0 []).length ≠ chunk_bytes
    ∧ 1 < (readChunksSched [1, 1] [7, 8]).length
    ∧ ¬ (((readChunksSched [1, 1] [7, 8]).length : ℚ)
        ≤ ((([7, 8] : List Nat).length : ℚ) / ((SAMPLE_RATE : ℚ) * 2))
            * SAMPLE_RATE / CHUNK_SIZE + 1) := by
  have h1 : readChunksSched [1, 1] [7, 8] = [[7], [8]] := by
    simp [readChunksSched]
  refine ⟨?_, ?_, ?_, ?_⟩
  · simp [stream_file_sched, h1]
  · rw [h1]
    simp [chunk_bytes, CHUNK_SIZE, bytes_per_frame]
  · rw [h1]
    norm_num
  · rw [h1]
    norm_num [SAMPLE_RATE, CHUNK_SIZE]

/-- C7 amended: at `realtime_factor = 1` a successfully spawned decode
sends one append event per frame delivered by the reads; under every read
schedule each frame is non-empty and at most `chunk_bytes` (2048) bytes,
and the frames concatenate to exactly the decoder output, nothing lost or
duplicated.  The claimed frame count — within ±1 of
`duration * sampleRate / frameSamples` (the decoder output holds
`2 * sampleRate` bytes per second, so that quantity is `pcm.length / 2048`)
— and the claimed sizes — all frames except possibly the last exactly
`chunk_bytes` — hold under the full-read schedule, where every read before
exhaustion returns the full `chunk_bytes` bytes. -/
theorem decode_file_frames (env : StreamEnv) (sched : List Nat)
    (henv : env.ffmpeg_on_path = true) (hspawn : env.spawn_ok = true) :
    stream_file_sched env sched 1 true
      = .ok ((readChunksSched sched env.pcm).flatMap
          (fun chunk => [.send (audio_event chunk), .sleep (pace_sleep 1)])
          ++ [.send commit_event])
    ∧ (∀ c ∈ readChunksSched sched env.pcm, 0 < c.length ∧ c.length ≤ chunk_bytes)
    ∧ (readChunksSched sched env.pcm).flatten = env.pcm
    ∧ stream_file_sched env [] 1 true = stream_file env 1 true
    ∧ ((env.pcm.length : ℚ) / ((SAMPLE_RATE : ℚ) * 2)) * SAMPLE_RATE / CHUNK_SIZE
        ≤ ((readChunks env.pcm).length : ℚ)
    ∧ ((readChunks env.pcm).length : ℚ)
        ≤ ((env.pcm.length : ℚ) / ((SAMPLE_RATE : ℚ) * 2)) * SAMPLE_RATE / CHUNK_SIZE + 1
    ∧ (∀ i, i + 1 < (readChunks env.pcm).length
        → ((readChunks env.pcm).getD i []).length = chunk_bytes) := by
  have hN : (readChunks env.pcm).length = (env.pcm.length + 2047) / 2048 :=
    readChunks_length env.pcm
  have hub : env.pcm.length ≤ 2048 * (readChunks env.pcm).length := by omega
  have hlb : 2048 * (readChunks env.pcm).length ≤ env.pcm.length + 2047 := by omega
  have key : ((env.pcm.length : ℚ) / ((SAMPLE_RATE : ℚ) * 2)) * SAMPLE_RATE / CHUNK_SIZE
      = (env.pcm.length : ℚ) / 2048 := by
    simp only [SAMPLE_RATE, CHUNK_SIZE]
    push_cast
    field_simp
    ring
  have hx : (env.pcm.length : ℚ) / 2048 * 2048 = (env.pcm.length : ℚ) := by
    field_simp
  have hubq : (env.pcm.length : ℚ) ≤ 2048 * ((readChunks env.pcm).length : ℚ) := by
    exact_mod_cast hub
  have hlbq : 2048 * ((readChunks env.pcm).length : ℚ) ≤ (env.pcm.length : ℚ) + 2047 := by
    exact_mod_cast hlb
  refine ⟨by simp [stream_file_sched, henv, hspawn], ?_,
    readChunksSched_join sched env.pcm, ?_, ?_, ?_, ?_⟩
  · simpa [chunk_bytes, CHUNK_SIZE, bytes_per_frame] using readChunksSched_sizes sched env.pcm
  · simp [stream_file_sched, stream_file, henv, hspawn, readChunksSched_nil_sched]
  · rw [key]
    linarith
  · rw [key]
    linarith
  · simpa [chunk_bytes, CHUNK_SIZE, bytes_per_frame] using readChunks_full env.pcm

/-- C7 witness: a two-byte decoder output delivered one byte per read
still concatenates to the original output. -/
theorem decode_file_frames_witness :
    ((⟨true, true, [7, 8], 0⟩ : StreamEnv).ffmpeg_on_path = true)
    ∧ (readChunksSched [1, 1] [7, 8]).flatten = [7, 8] :=
  ⟨rfl, (decode_file_frames ⟨true, true, [7, 8], 0⟩ [1, 1] rfl rfl).2.2.1⟩

/-! ### Connect -/

/-- C8 counterexample: starting from a state already holding the open
connection `0`, a second `connect` call is neither a no-op nor a failure:
it opens the fresh connection `1`, overwrites the held handle with it, and
closes nothing — so the previously held connection stays open. -/
theorem second_connect_not_guarded :
    (connect ⟨0, none⟩).state.websocket = some 0
    ∧ (connect (connect ⟨0, none⟩).state).opened = 1
    ∧ (connect (connect ⟨0, none⟩).state).state.websocket = some 1
    ∧ (connect (connect ⟨0, none⟩).state).closed = [] :=
  ⟨rfl, rfl, rfl, rfl⟩

/-- C8 amended: `connect` is not idempotent-guarded — every call, from any
state, unconditionally opens a fresh connection, stores it, and closes
nothing; each successful connect sends exactly the session configuration
event (type `session.update`) on the new connection before anything else,
hence before any audio frame. -/
theorem connect_sends_config_first (s : ConnectState) :
    (connect s).sent = [((connect s).opened, session_config)]
    ∧ jget session_config "type" .null = .str "session.update"
    ∧ (connect s).state.websocket = some ((connect s).opened)
    ∧ (connect s).closed = [] :=
  ⟨rfl, rfl, rfl, rfl⟩

/-! ### Batch transcription -/

/-- C9 counterexample: on a nonexistent path `translate_audio` does not
fail — it returns an ordinary string through the success channel, a value
indistinguishable from a genuine transcription (the same string is returned
as a successful transcription of an existing file). -/
theorem translate_audio_error_is_plain_string :
    translate_audio false "test/missing.m4a" "p" (fun _ => .success "hi")
      = "Error: Audio file not found at test/missing.m4a"
    ∧ translate_audio true "test/a.m4a" "p"
        (fun _ => .success "Error: Audio file not found at test/missing.m4a")
      = "Error: Audio file not found at test/missing.m4a" :=
  ⟨rfl, rfl⟩

/-- C9 amended: `translate_audio` returns the transcribed text on success;
when the path does not exist it returns the sentinel string
`"Error: Audio file not found at <path>"` instead of raising, and when the
service call fails it returns `"An error occurred: <e>"`; all three
outcomes share the ordinary string return channel. -/
theorem translate_audio_behaviour (fp p : String) (svc : String → ServiceOutcome) :
    translate_audio false fp p svc = "Error: Audio file not found at " ++ fp
    ∧ (∀ t, svc p = .success t → translate_audio true fp p svc = t)
    ∧ (∀ e, svc p = .failure e → translate_audio true fp p svc = "An error occurred: " ++ e) := by
  refine ⟨rfl, fun t ht => ?_, fun e he => ?_⟩
  · simp [translate_audio, ht]
  · simp [translate_audio, he]

/-- C9 witness: a successful service call returns its text unchanged. -/
theorem translate_audio_behaviour_witness :
    ((fun _ : String => ServiceOutcome.success "hello") "p" = .success "hello")
    ∧ translate_audio true "a.m4a" "p" (fun _ => .success "hello") = "hello" :=
  ⟨rfl, (translate_audio_behaviour "a.m4a" "p" (fun _ => .success "hello")).2.1 "hello" rfl⟩

/-- C10 witness: a concrete completed event with no `transcript` key leaves
the initial state unchanged. -/
theorem missing_transcript_like_empty_witness :
    handle_response
      (.obj [("type", .str "conversation.item.input_audio_transcription.completed")])
      TState.init = (TState.init, []) :=
  (missing_transcript_like_empty
    [("type", .str "conversation.item.input_audio_transcription.completed")]
    TState.init rfl rfl).1

end Lexiconic
